import Mathlib

/-!
# Verification of the portal-datastore provisioning core

Shallow embedding of the `portal-datastore` service (`src/ds.py` and
`src/main.py`).  The iRODS backend is modelled as an explicit state
(users, collections, data objects, ACL entries, and the declared
permission vocabulary); every operation of `DataStoreAPI` and every
HTTP handler of `main.py` becomes a state-passing Lean function with
`Except` for the exceptions the Python code can raise.

Logical paths are represented at the backend as lists of nonempty
segments (the normal form `iRODSPath` computes), while the HTTP layer
works on raw strings, exactly as the Python code does.
-/

namespace PortalDatastore

/-! ## Path strings

`iRODSPath` normalizes a logical path by collapsing separators: it
splits on `/`, drops empty segments and rejoins.  We model the
splitting on characters so that facts about concatenation are
provable. -/

/-- Split a character list on `/`, keeping empty pieces (the exact
semantics of splitting a string on the separator). -/
def segs : List Char → List (List Char)
  | [] => [[]]
  | c :: cs =>
    let r := segs cs
    if c = '/' then [] :: r else (c :: r.headD []) :: r.tail

/-- The pieces of a path string between `/` separators. -/
def segsOf (p : String) : List String :=
  (segs p.toList).map (fun l => String.mk l)

/-- Keep a segment iff it is nonempty (empty pieces are separator
runs, which normalization collapses). -/
def isRealSeg (x : List Char) : Bool :=
  !x.isEmpty

/-- The nonempty segments of a path: the normal form used by the
backend for logical paths (what `iRODSPath` keeps). -/
def normSegs (p : String) : List String :=
  ((segs p.toList).filter isRealSeg).map (fun l => String.mk l)

/-- Join segments with `/` separators. -/
def joinChars : List (List Char) → List Char
  | [] => []
  | [x] => x
  | x :: y :: xs => x ++ '/' :: joinChars (y :: xs)

/-- The normalized path string produced by `iRODSPath`: leading `/`,
nonempty segments joined by `/` (collapses duplicate and trailing
separators; `.` and `..` segments are kept verbatim). -/
def normPath (p : String) : String :=
  String.mk ('/' :: joinChars ((segs p.toList).filter isRealSeg))

/-- `b.startswith("/")`: the first character is the separator. -/
def startsWithSep (p : String) : Bool :=
  match p.toList with
  | [] => false
  | c :: _ => c = '/'

/-- `a.endswith("/")`: the last character is the separator. -/
def endsWithSep (p : String) : Bool :=
  match p.toList.getLast? with
  | some c => c = '/'
  | none => false

/-- Python `os.path.join(a, b)` for POSIX paths: an absolute second
argument discards the first entirely; otherwise the two are glued with
a single separator unless `a` is empty or already ends in one. -/
def osPathJoin (a b : String) : String :=
  if startsWithSep b then b
  else if a = "" ∨ endsWithSep a then a ++ b
  else a ++ "/" ++ b

/-- One step of walking a path: `.` and empty segments are skipped,
`..` pops the last component, anything else descends. -/
def resolveStep (acc : List String) (seg : String) : List String :=
  if seg = "" ∨ seg = "." then acc
  else if seg = ".." then acc.dropLast
  else acc ++ [seg]

/-- A segment that actually descends (neither empty nor `.`). -/
def keepSeg (seg : String) : Bool :=
  !(seg == "" || seg == ".")

/-- Resolve `.`/`..` segments the way a hierarchical store would when
walking the path. -/
def resolveSegs (l : List String) : List String :=
  l.foldl resolveStep []

/-- `p` designates a location inside the subtree rooted at `home`
(after resolving separator runs and `.`/`..` segments). -/
def underHome (home p : String) : Bool :=
  (resolveSegs (segsOf home)).isPrefixOf (resolveSegs (segsOf p))

/-! ## Backend state

The iRODS catalog as seen through the session: users (name and zone),
collections and data objects (by normalized path), ACL entries, and
the permission vocabulary `session.available_permissions.keys()`.
`zone` is the session's zone (`self.zone` in `DataStoreAPI`); neither
it nor `perms` is ever modified by an operation. -/

/-- An iRODS user (`iRODSUser`): a name in a zone. -/
structure IUser where
  name : String
  zone : String
  deriving DecidableEq, Repr

/-- An ACL entry: `(principal, permission-name, normalized path)`.
The empty principal together with `inherit` models the collection's
inherit flag. -/
structure Acl where
  principal : String
  perm : String
  path : List String
  deriving DecidableEq, Repr

/-- The backend catalog plus the session configuration. -/
structure State where
  zone : String
  users : List IUser
  collections : List (List String)
  dataObjects : List (List String)
  acls : List Acl
  perms : List String
  deriving DecidableEq, Repr

/-- Errors surfaced to HTTP: `http code msg` for `HTTPException`s
raised by the handlers, `backend msg` for exceptions out of the iRODS
client (turned into a 500 by the middleware). -/
inductive Err where
  | http : Nat → String → Err
  | backend : String → Err
  deriving DecidableEq, Repr

/-! ## `DataStoreAPI` operations (`src/ds.py`) -/

/-- Whether a user with this name exists in the session zone (the
lookup `session.users.get(username, self.zone)` succeeds). -/
def userPresent (s : State) (username : String) : Bool :=
  s.users.any (fun x => x.name = username && x.zone = s.zone)

/-- `ds.path_exists`: normalize with `iRODSPath`, then test data
objects first, collections second. -/
def dataObjectExists (s : State) (p : String) : Bool :=
  normSegs p ∈ s.dataObjects

/-- `session.collections.exists` on a raw path. -/
def collectionExists (s : State) (p : String) : Bool :=
  normSegs p ∈ s.collections

/-- `ds.DataStoreAPI.path_exists`. -/
def pathExistsDs (s : State) (p : String) : Bool :=
  dataObjectExists s p || collectionExists s p

/-- `ds.DataStoreAPI.user_exists` (state level: the backend raises
`UserDoesNotExist` exactly when no such user is in the catalog). -/
def userExistsDs (s : State) (username : String) : Bool :=
  userPresent s username

/-- `ds.DataStoreAPI.home_directory`: `iRODSPath(f"/{zone}/home/{username}")`. -/
def homeDirectory (zone username : String) : String :=
  normPath ("/" ++ zone ++ "/home/" ++ username)

/-- `ds.DataStoreAPI.get_user`: `session.users.get(username, self.zone)`,
raising when absent. -/
def getUser (s : State) (username : String) : Except Err (IUser × State) :=
  if userPresent s username then .ok (⟨username, s.zone⟩, s)
  else .error (.backend "UserDoesNotExist")

/-- `ds.DataStoreAPI.create_user`: `session.users.create(username, "rodsuser")`;
the catalog rejects a duplicate name in the zone. -/
def createUserDs (s : State) (username : String) : Except Err (IUser × State) :=
  if userPresent s username then .error (.backend "CAT_INVALID_USER: name exists")
  else .ok (⟨username, s.zone⟩, { s with users := ⟨username, s.zone⟩ :: s.users })

/-- Append each element of `xs` that is not already present (used for
recursive collection creation, which creates the missing ancestors). -/
def addMissing (l xs : List (List String)) : List (List String) :=
  xs.foldl (fun acc x => if x ∈ acc then acc else acc ++ [x]) l

/-- The chain of ancestors of a normalized path, shortest first,
ending with the path itself. -/
def ancestorChain (q : List String) : List (List String) :=
  (List.range' 1 q.length).map (fun k => q.take k)

/-- `session.collections.create(path)` (recursive by default): errors
if the collection or a data object already occupies the path,
otherwise records the collection and any missing ancestors. -/
def collCreate (p : String) (s : State) : Except Err (Unit × State) :=
  if normSegs p ∈ s.collections then
    .error (.backend "CATALOG_ALREADY_HAS_ITEM_BY_THAT_NAME")
  else if normSegs p ∈ s.dataObjects then
    .error (.backend "CAT_NAME_EXISTS_AS_DATAOBJ")
  else
    .ok ((), { s with
      collections := addMissing s.collections (ancestorChain (normSegs p)) })

/-- The ACL entries untouched by a grant to `principal` on `q`: those
with a different principal or a different path. -/
def aclOther (principal : String) (q : List String) (a : Acl) : Bool :=
  !(a.principal == principal && a.path == q)

/-- `session.acls.set(iRODSAccess(perm, path, principal))` on the ACL
table: one entry per `(principal, path)`, the new grant replaces any
previous one, and `null` removes it. -/
def setAcl (principal perm : String) (q : List String) (l : List Acl) : List Acl :=
  let rest := l.filter (aclOther principal q)
  if perm = "null" then rest else ⟨principal, perm, q⟩ :: rest

/-- `ds.DataStoreAPI.chmod`: builds an `iRODSAccess` and applies it.
The backend rejects a nonexistent path, an unknown permission name,
and (except for the collection-level `inherit`/`noinherit` flags,
which name no principal) a nonexistent principal. -/
def chmodDs (principal perm path : String) (s : State) : Except Err (Unit × State) :=
  if !(normSegs path ∈ s.dataObjects || normSegs path ∈ s.collections) then
    .error (.backend "CAT_UNKNOWN_COLLECTION")
  else if perm = "inherit" ∨ perm = "noinherit" then
    .ok ((), { s with acls := setAcl principal perm (normSegs path) s.acls })
  else if perm ∉ s.perms then .error (.backend "CAT_INVALID_ARGUMENT: permission")
  else if !userPresent s principal then .error (.backend "CAT_INVALID_USER")
  else .ok ((), { s with acls := setAcl principal perm (normSegs path) s.acls })

/-- Remove a collection with `force=True, recurse=True`: the whole
subtree (collections, data objects, and their ACL entries) disappears. -/
def collRemoveRecursive (q : List String) (s : State) : State :=
  { s with
    collections := s.collections.filter (fun c => !q.isPrefixOf c)
    dataObjects := s.dataObjects.filter (fun d => !q.isPrefixOf d)
    acls := s.acls.filter (fun a => !q.isPrefixOf a.path) }

/-- `ds.DataStoreAPI.delete_home`: compute the home directory and
remove it recursively when the collection exists. -/
def deleteHome (username : String) (s : State) : Except Err (Unit × State) :=
  if normSegs (homeDirectory s.zone username) ∈ s.collections then
    .ok ((), collRemoveRecursive (normSegs (homeDirectory s.zone username)) s)
  else .ok ((), s)

/-- `ds.DataStoreAPI.ensure_user_exists`: return the user when it
already exists; otherwise create it, and when its home directory does
not yet exist create that too and grant the user full ownership. -/
def ensureUserExists (username : String) (s : State) : Except Err (IUser × State) :=
  if userExistsDs s username then getUser s username
  else
    match createUserDs s username with
    | .error e => .error e
    | .ok (user, s1) =>
      if !pathExistsDs s1 (homeDirectory s1.zone username) then
        match collCreate (homeDirectory s1.zone username) s1 with
        | .error e => .error e
        | .ok (_, s2) =>
          match chmodDs username "own" (homeDirectory s1.zone username) s2 with
          | .error e => .error e
          | .ok (_, s3) => .ok (user, s3)
      else .ok (user, s1)

/-! ## HTTP handlers (`src/main.py`)

Handlers return both an outcome and the resulting backend state, so a
validation rejection (`HTTPException`) visibly leaves the state
untouched. -/

/-- Request body of `POST /path/chmod`. -/
structure PathPermission where
  username : String
  path : String
  permission : String
  deriving DecidableEq, Repr

/-- `main.chmod` (`POST /path/chmod`): shape checks, then user
existence, permission-vocabulary membership and path existence, and
only then the backend grant. -/
def chmodHandler (pc : PathPermission) (s : State) : Except Err PathPermission × State :=
  if pc.username = "" then (.error (.http 400 "username must be set in request body"), s)
  else if pc.path = "" then (.error (.http 400 "path must be set in request body"), s)
  else if pc.permission = "" then (.error (.http 400 "permission must be set in request body"), s)
  else if !userExistsDs s pc.username then
    (.error (.http 400 "username does not exist"), s)
  else if pc.permission ∉ s.perms then
    (.error (.http 400 "permission does not exist"), s)
  else if !pathExistsDs s pc.path then
    (.error (.http 400 "path does not exist"), s)
  else
    match chmodDs pc.username pc.permission pc.path s with
    | .ok (_, s1) => (.ok pc, s1)
    | .error e => (.error e, s)

/-- `main.create_user` (`POST /users/{username}`): reject an empty
name, reject an existing user, otherwise create. -/
def createUserHandler (username : String) (s : State) : Except Err IUser × State :=
  if username = "" then (.error (.http 400 "username must not be empty"), s)
  else if userExistsDs s username then (.error (.http 400 "user exists"), s)
  else
    match createUserDs s username with
    | .ok (u, s1) => (.ok u, s1)
    | .error e => (.error e, s)

/-- Request body of `POST /services/register`. -/
structure ServiceRegistration where
  username : String
  irods_path : String
  irods_user : Option String
  deriving DecidableEq, Repr

/-- Response of `POST /services/register`. -/
structure RegResult where
  user : String
  irods_path : String
  irods_user : Option String
  deriving DecidableEq, Repr

/-- The grant sequence at the end of `main.service_registration`: the
`inherit` default for descendants, full ownership for the primary
user, and full ownership for the optional secondary `irods_user`. -/
def registerGrants (username : String) (sec : Option String) (fullPath : String)
    (s : State) : Except Err State :=
  match chmodDs "" "inherit" fullPath s with
  | .error e => .error e
  | .ok (_, s3) =>
    match chmodDs username "own" fullPath s3 with
    | .error e => .error e
    | .ok (_, s4) =>
      match sec with
      | none => .ok s4
      | some su =>
        match chmodDs su "own" fullPath s4 with
        | .error e => .error e
        | .ok (_, s5) => .ok s5

/-- The cumulative effect of `registerGrants` on the ACL table:
inherit for the empty principal, ownership for the primary user,
then ownership for the secondary user when present. -/
def grantsAcls (username : String) (sec : Option String) (q : List String)
    (a : List Acl) : List Acl :=
  match sec with
  | none => setAcl username "own" q (setAcl "" "inherit" q a)
  | some su => setAcl su "own" q (setAcl username "own" q (setAcl "" "inherit" q a))

/-- `main.service_registration` (`POST /services/register`): validate
the two mandatory fields, ensure the user exists (failures become a
500), join the sub-path onto the home directory with `os.path.join`,
create the collection when the full path does not exist, then apply
the three grants of `registerGrants`. -/
def serviceRegistration (reg : ServiceRegistration) (s : State) :
    Except Err (RegResult × State) :=
  if reg.username = "" then .error (.http 400 "username must not be empty")
  else if reg.irods_path = "" then .error (.http 400 "irods_path must not be empty")
  else
    match ensureUserExists reg.username s with
    | .error _ => .error (.http 500 ("Failed to prepare user " ++ reg.username))
    | .ok (_, s1) =>
      if !pathExistsDs s1 (osPathJoin (homeDirectory s1.zone reg.username) reg.irods_path) then
        match collCreate (osPathJoin (homeDirectory s1.zone reg.username) reg.irods_path) s1 with
        | .error e => .error e
        | .ok (_, s2) =>
          match registerGrants reg.username reg.irods_user
              (osPathJoin (homeDirectory s1.zone reg.username) reg.irods_path) s2 with
          | .error e => .error e
          | .ok s5 =>
            .ok (⟨reg.username,
              osPathJoin (homeDirectory s1.zone reg.username) reg.irods_path,
              reg.irods_user⟩, s5)
      else
        match registerGrants reg.username reg.irods_user
            (osPathJoin (homeDirectory s1.zone reg.username) reg.irods_path) s1 with
        | .error e => .error e
        | .ok s5 =>
          .ok (⟨reg.username,
            osPathJoin (homeDirectory s1.zone reg.username) reg.irods_path,
            reg.irods_user⟩, s5)

/-! ## Exception-level model of `user_exists` (`src/ds.py`)

`session.users.get` either returns a user, raises the distinguishable
`UserDoesNotExist`, or raises some other backend exception. -/

/-- Outcome of the backend lookup `session.users.get(username, zone)`. -/
inductive LookupOutcome where
  | found : IUser → LookupOutcome
  | userDoesNotExist : LookupOutcome
  | failure : String → LookupOutcome
  deriving DecidableEq, Repr

/-- `ds.DataStoreAPI.user_exists` over the lookup outcome: `try` the
lookup and record whether a user came back (`user is not None`),
`except UserDoesNotExist` yields `false`, and any other exception
propagates to the caller. -/
def userExistsRaw : LookupOutcome → Except Err Bool
  | .found _ => .ok true
  | .userDoesNotExist => .ok false
  | .failure m => .error (.backend m)

/-! ## Query model of `list_users_by_username` (`src/ds.py`)

The query filter is built from the Python expression
`User.name == username and User.zone == self.zone`.  Its operands are
column-criterion objects; `and` in Python evaluates to the second
operand whenever the first is truthy, and criterion objects define no
`__bool__`, so they are always truthy. -/

/-- A column criterion of the backend query builder. -/
inductive Criterion where
  | nameEq : String → Criterion
  | zoneEq : String → Criterion
  deriving DecidableEq, Repr

/-- Python truthiness of a criterion object: no `__bool__` override,
so every criterion is truthy. -/
def criterionTruthy : Criterion → Bool :=
  fun _ => true

/-- Python `and`: the second operand when the first is truthy,
otherwise the first. -/
def pyAnd (a b : Criterion) : Criterion :=
  if criterionTruthy a then b else a

/-- Which users a criterion selects. -/
def matchesCriterion (c : Criterion) (x : IUser) : Bool :=
  match c with
  | .nameEq n => x.name == n
  | .zoneEq z => x.zone == z

/-- `ds.DataStoreAPI.list_users_by_username`: run the user query with
the filter `User.name == username and User.zone == self.zone`, then
fetch each returned `(name, zone)` row through `session.users.get`. -/
def listUsersByUsername (s : State) (username : String) : List IUser :=
  (s.users.filter (matchesCriterion (pyAnd (.nameEq username) (.zoneEq s.zone)))).map
    (fun x => ⟨x.name, x.zone⟩)

/-! ## Result extractors (for stating facts about computed outcomes) -/

/-- The HTTP status code of an error outcome, if any. -/
def httpCode {α : Type} : Except Err α → Option Nat
  | .error (.http c _) => some c
  | _ => none

/-- The response path of a successful registration. -/
def regOutPath : Except Err (RegResult × State) → Option String
  | .ok (out, _) => some out.irods_path
  | .error _ => none

/-- The backend collections after a registration outcome (empty on
error). -/
def regFinalCollections : Except Err (RegResult × State) → List (List String)
  | .ok (_, s1) => s1.collections
  | .error _ => []

/-! ## Concrete states used by witnesses and counterexamples -/

/-- A catalog in zone `tempZone` with user `alice`, her home
directory, and a secondary user `bob`. -/
def stateAlice : State :=
  { zone := "tempZone"
    users := [⟨"alice", "tempZone"⟩, ⟨"bob", "tempZone"⟩]
    collections := [["tempZone"], ["tempZone", "home"], ["tempZone", "home", "alice"]]
    dataObjects := []
    acls := [⟨"alice", "own", ["tempZone", "home", "alice"]⟩]
    perms := ["own", "write", "read", "null"] }

/-- A registration request whose sub-path is absolute. -/
def regStolen : ServiceRegistration :=
  ⟨"alice", "/stolen", none⟩

/-- The response of registering `projectA` for `alice` with secondary
user `bob` on `stateAlice`. -/
def regProjOut : RegResult :=
  ⟨"alice", "/tempZone/home/alice/projectA", some "bob"⟩

/-- The backend state after registering `projectA` for `alice` with
secondary user `bob` on `stateAlice`. -/
def stateAliceProj : State :=
  { zone := "tempZone"
    users := [⟨"alice", "tempZone"⟩, ⟨"bob", "tempZone"⟩]
    collections := [["tempZone"], ["tempZone", "home"], ["tempZone", "home", "alice"],
      ["tempZone", "home", "alice", "projectA"]]
    dataObjects := []
    acls := [⟨"bob", "own", ["tempZone", "home", "alice", "projectA"]⟩,
      ⟨"alice", "own", ["tempZone", "home", "alice", "projectA"]⟩,
      ⟨"", "inherit", ["tempZone", "home", "alice", "projectA"]⟩,
      ⟨"alice", "own", ["tempZone", "home", "alice"]⟩]
    perms := ["own", "write", "read", "null"] }

/-- A catalog in zone `z` where the collection `/z/home/dana` already
exists although no user `dana` exists. -/
def stateDana : State :=
  { zone := "z"
    users := []
    collections := [["z"], ["z", "home"], ["z", "home", "dana"]]
    dataObjects := []
    acls := []
    perms := ["own", "write", "read", "null"] }

/-- The backend state after `ensure_user_exists("dana")` on
`stateDana`: the user is created, but the pre-existing home directory
is left untouched, without any ownership grant. -/
def stateDana1 : State :=
  { zone := "z"
    users := [⟨"dana", "z"⟩]
    collections := [["z"], ["z", "home"], ["z", "home", "dana"]]
    dataObjects := []
    acls := []
    perms := ["own", "write", "read", "null"] }

/-- A catalog in zone `z` where the collection `/z/home/carol` already
exists although no user `carol` exists. -/
def stateCarol : State :=
  { zone := "z"
    users := []
    collections := [["z"], ["z", "home"], ["z", "home", "carol"]]
    dataObjects := []
    acls := []
    perms := ["own", "write", "read", "null"] }

/-- The backend state after `ensure_user_exists("carol")` on
`stateCarol`: the user is created, but the pre-existing home directory
is left untouched, without any ownership grant. -/
def stateCarol1 : State :=
  { zone := "z"
    users := [⟨"carol", "z"⟩]
    collections := [["z"], ["z", "home"], ["z", "home", "carol"]]
    dataObjects := []
    acls := []
    perms := ["own", "write", "read", "null"] }

/-- An empty catalog in zone `z`. -/
def stateEmpty : State :=
  { zone := "z"
    users := []
    collections := [["z"], ["z", "home"]]
    dataObjects := []
    acls := []
    perms := ["own", "write", "read", "null"] }

/-! ## Lemmas about path splitting and normalization -/

lemma segs_ne_nil (l : List Char) : segs l ≠ [] := by
  cases l with
  | nil => simp [segs]
  | cons c cs =>
    by_cases hc : c = '/' <;> simp [segs, hc]

lemma segs_append (a b : List Char) : segs (a ++ '/' :: b) = segs a ++ segs b := by
  induction a with
  | nil => simp [segs]
  | cons c cs ih =>
    by_cases hc : c = '/'
    · simp [segs, hc, ih]
    · obtain ⟨h, t, hht⟩ := List.exists_cons_of_ne_nil (segs_ne_nil cs)
      simp [segs, hc, ih, hht]

lemma no_slash_of_mem_segs (l : List Char) (x : List Char) (hx : x ∈ segs l) :
    '/' ∉ x := by
  induction l generalizing x with
  | nil => simp [segs] at hx; simp [hx]
  | cons c cs ih =>
    by_cases hc : c = '/'
    · simp [segs, hc] at hx
      rcases hx with hx | hx
      · simp [hx]
      · exact ih x hx
    · obtain ⟨h, t, hht⟩ := List.exists_cons_of_ne_nil (segs_ne_nil cs)
      simp [segs, hc, hht] at hx
      rcases hx with hx | hx
      · subst hx
        intro hmem
        rcases List.mem_cons.mp hmem with h1 | h1
        · exact hc h1.symm
        · exact ih h (by simp [hht]) h1
      · exact ih x (by simp [hht, hx])

lemma segs_no_slash (l : List Char) (h : '/' ∉ l) : segs l = [l] := by
  induction l with
  | nil => simp [segs]
  | cons c cs ih =>
    have hc : c ≠ '/' := fun hc => h (hc ▸ List.mem_cons_self c cs)
    have hcs : '/' ∉ cs := fun hm => h (List.mem_cons_of_mem c hm)
    simp [segs, hc, ih hcs]

lemma segs_joinChars (L : List (List Char)) (h1 : ∀ x ∈ L, x ≠ [])
    (h2 : ∀ x ∈ L, '/' ∉ x) : segs (joinChars L) = if L = [] then [[]] else L := by
  induction L with
  | nil => simp [joinChars, segs]
  | cons x xs ih =>
    cases xs with
    | nil => simp [joinChars, segs_no_slash x (h2 x (by simp))]
    | cons y ys =>
      have hx : '/' ∉ x := h2 x (by simp)
      have step : segs (joinChars (x :: y :: ys)) = segs x ++ segs (joinChars (y :: ys)) := by
        simpa [joinChars] using segs_append x (joinChars (y :: ys))
      rw [step, segs_no_slash x hx,
        ih (fun z hz => h1 z (by simp [hz])) (fun z hz => h2 z (by simp [hz]))]
      simp

lemma isRealSeg_iff (x : List Char) : isRealSeg x = true ↔ x ≠ [] := by
  simp [isRealSeg]

lemma filter_isRealSeg_idem (m : List (List Char)) :
    (m.filter isRealSeg).filter isRealSeg = m.filter isRealSeg := by
  rw [List.filter_filter]
  simp

lemma normSegs_normPath (p : String) : normSegs (normPath p) = normSegs p := by
  have hdata : (normPath p).toList
      = '/' :: joinChars ((segs p.toList).filter isRealSeg) := rfl
  unfold normSegs
  rw [hdata]
  have h1 : ∀ x ∈ (segs p.toList).filter isRealSeg, x ≠ [] := by
    intro x hx
    exact (isRealSeg_iff x).mp (List.mem_filter.mp hx).2
  have h2 : ∀ x ∈ (segs p.toList).filter isRealSeg, '/' ∉ x := by
    intro x hx
    exact no_slash_of_mem_segs p.toList x (List.mem_filter.mp hx).1
  have hsplit : segs ('/' :: joinChars ((segs p.toList).filter isRealSeg))
      = [] :: segs (joinChars ((segs p.toList).filter isRealSeg)) := by
    simp [segs]
  rw [hsplit, segs_joinChars _ h1 h2]
  by_cases hL : (segs p.toList).filter isRealSeg = []
  · rw [if_pos hL, hL]
    simp [List.filter_cons, isRealSeg]
  · rw [if_neg hL, List.filter_cons]
    have : isRealSeg [] = false := by simp [isRealSeg]
    rw [if_neg (by simp [this]), filter_isRealSeg_idem]

lemma home_mem_normSegs (zone username : String) :
    "home" ∈ normSegs (homeDirectory zone username) := by
  rw [homeDirectory, normSegs_normPath]
  have hdata : ("/" ++ zone ++ "/home/" ++ username).toList
      = ('/' :: zone.toList) ++ '/' :: (['h', 'o', 'm', 'e'] ++ '/' :: username.toList) := by
    show ("/" ++ zone ++ "/home/" ++ username).data = _
    rw [String.data_append, String.data_append, String.data_append]
    simp
  unfold normSegs
  rw [hdata, segs_append, segs_append]
  apply List.mem_map.mpr
  refine ⟨['h', 'o', 'm', 'e'], ?_, rfl⟩
  apply List.mem_filter.mpr
  constructor
  · have : ['h', 'o', 'm', 'e'] ∈ segs ['h', 'o', 'm', 'e'] := by
      rw [segs_no_slash] <;> simp
    simp [this]
  · simp [isRealSeg]

lemma normSegs_homeDirectory_ne_nil (zone username : String) :
    normSegs (homeDirectory zone username) ≠ [] :=
  List.ne_nil_of_mem (home_mem_normSegs zone username)

lemma segsOf_append (a b : String) : segsOf (a ++ "/" ++ b) = segsOf a ++ segsOf b := by
  unfold segsOf
  have hdata : (a ++ "/" ++ b).toList = a.toList ++ '/' :: b.toList := by
    show (a ++ "/" ++ b).data = _
    rw [String.data_append, String.data_append]
    simp
  rw [hdata, segs_append, List.map_append]

lemma foldl_resolveStep_no_dotdot (B : List String) (h : ".." ∉ B) (C : List String) :
    B.foldl resolveStep C = C ++ B.filter keepSeg := by
  induction B generalizing C with
  | nil => simp
  | cons b bs ih =>
    have hb : b ≠ ".." := fun he => h (he ▸ List.mem_cons_self b bs)
    have hbs : ".." ∉ bs := fun hm => h (List.mem_cons_of_mem b hm)
    rw [List.foldl_cons]
    by_cases hskip : b = "" ∨ b = "."
    · rw [show resolveStep C b = C by simp [resolveStep, hskip], ih hbs C,
        List.filter_cons,
        show keepSeg b = false by rcases hskip with h1 | h1 <;> simp [keepSeg, h1]]
      simp
    · rw [show resolveStep C b = C ++ [b] by simp [resolveStep, hskip, hb],
        ih hbs (C ++ [b]),
        List.filter_cons,
        show keepSeg b = true by
          push_neg at hskip
          simp [keepSeg, hskip.1, hskip.2]]
      simp

lemma underHome_append (home sub : String) (hsub : ".." ∉ segsOf sub) :
    underHome home (home ++ "/" ++ sub) = true := by
  unfold underHome
  rw [segsOf_append]
  unfold resolveSegs
  rw [List.foldl_append, foldl_resolveStep_no_dotdot (segsOf sub) hsub]
  exact ( List.isPrefixOf_iff_prefix).mpr (List.prefix_append _ _)

/-! ## Lemmas about ACL grant replacement -/

lemma aclOther_mk_eq_false (u p : String) (q : List String) :
    aclOther u q ⟨u, p, q⟩ = false := by
  simp [aclOther]

lemma aclOther_mk_eq_true (u v p : String) (q : List String) (h : v ≠ u) :
    aclOther u q ⟨v, p, q⟩ = true := by
  simp [aclOther, h]

lemma filter_aclOther_idem (u : String) (q : List String) (l : List Acl) :
    (l.filter (aclOther u q)).filter (aclOther u q) = l.filter (aclOther u q) := by
  rw [List.filter_filter]
  simp

lemma filter_aclOther_comm (u v : String) (q r : List String) (l : List Acl) :
    (l.filter (aclOther u q)).filter (aclOther v r)
      = (l.filter (aclOther v r)).filter (aclOther u q) := by
  rw [List.filter_filter, List.filter_filter]
  apply List.filter_congr
  intro x _
  exact Bool.and_comm _ _

lemma filter_cons_acl_self (u p : String) (q : List String) (l : List Acl) :
    List.filter (aclOther u q) (⟨u, p, q⟩ :: l) = List.filter (aclOther u q) l := by
  rw [List.filter_cons, if_neg (by simp [aclOther_mk_eq_false])]

lemma filter_cons_acl_ne (u v p : String) (q : List String) (l : List Acl) (h : v ≠ u) :
    List.filter (aclOther u q) (⟨v, p, q⟩ :: l)
      = ⟨v, p, q⟩ :: List.filter (aclOther u q) l := by
  rw [List.filter_cons, if_pos (by simp [aclOther_mk_eq_true _ _ _ _ h])]

lemma filter_setAcl_self (u p : String) (q : List String) (l : List Acl)
    (hp : p ≠ "null") :
    List.filter (aclOther u q) (setAcl u p q l) = List.filter (aclOther u q) l := by
  simp only [setAcl, if_neg hp]
  rw [filter_cons_acl_self, filter_aclOther_idem]

lemma filter_setAcl_ne (u v p : String) (q : List String) (l : List Acl)
    (hp : p ≠ "null") (h : u ≠ v) :
    List.filter (aclOther v q) (setAcl u p q l)
      = setAcl u p q (List.filter (aclOther v q) l) := by
  simp only [setAcl, if_neg hp]
  rw [filter_cons_acl_ne _ _ _ _ _ h, filter_aclOther_comm]

lemma setAcl_setAcl_same (u p p' : String) (q : List String) (l : List Acl)
    (hp : p ≠ "null") (hp' : p' ≠ "null") :
    setAcl u p q (setAcl u p' q l) = setAcl u p q l := by
  conv_lhs => rw [setAcl, if_neg hp]
  rw [filter_setAcl_self u p' q l hp']
  rw [setAcl, if_neg hp]

lemma setAcl_pair_idem (u1 p1 u2 p2 : String) (q : List String) (l : List Acl)
    (hp1 : p1 ≠ "null") (hp2 : p2 ≠ "null") (hu : u1 ≠ u2) :
    setAcl u2 p2 q (setAcl u1 p1 q (setAcl u2 p2 q (setAcl u1 p1 q l)))
      = setAcl u2 p2 q (setAcl u1 p1 q l) := by
  have step1 : setAcl u1 p1 q (setAcl u2 p2 q (setAcl u1 p1 q l))
      = ⟨u1, p1, q⟩ :: setAcl u2 p2 q (List.filter (aclOther u1 q) l) := by
    conv_lhs => rw [setAcl, if_neg hp1]
    rw [filter_setAcl_ne _ _ _ _ _ hp2 (Ne.symm hu), filter_setAcl_self _ _ _ _ hp1]
  rw [step1]
  conv_lhs => rw [setAcl, if_neg hp2]
  rw [filter_cons_acl_ne _ _ _ _ _ hu, filter_setAcl_self _ _ _ _ hp2]
  conv_rhs => rw [setAcl, if_neg hp2]
  congr 1
  conv_rhs => rw [setAcl, if_neg hp1]
  rw [filter_cons_acl_ne _ _ _ _ _ hu]

lemma setAcl_triple_idem (u1 p1 u2 p2 u3 p3 : String) (q : List String) (l : List Acl)
    (hp1 : p1 ≠ "null") (hp2 : p2 ≠ "null") (hp3 : p3 ≠ "null") (h12 : u1 ≠ u2) :
    setAcl u3 p3 q (setAcl u2 p2 q (setAcl u1 p1 q
      (setAcl u3 p3 q (setAcl u2 p2 q (setAcl u1 p1 q l)))))
      = setAcl u3 p3 q (setAcl u2 p2 q (setAcl u1 p1 q l)) := by
  have h21 : u2 ≠ u1 := Ne.symm h12
  by_cases h32 : u3 = u2
  · subst h32
    rw [setAcl_setAcl_same _ _ _ _ _ hp3 hp2, setAcl_setAcl_same _ _ _ _ _ hp3 hp2]
    exact setAcl_pair_idem u1 p1 u3 p3 q l hp1 hp3 h12
  · by_cases h31 : u3 = u1
    · subst h31
      have hNF : setAcl u3 p3 q (setAcl u2 p2 q (setAcl u3 p1 q l))
          = ⟨u3, p3, q⟩ :: ⟨u2, p2, q⟩ ::
            (l.filter (aclOther u3 q)).filter (aclOther u2 q) := by
        simp only [setAcl, if_neg hp1, if_neg hp2, if_neg hp3]
        rw [filter_cons_acl_ne _ _ _ _ _ h12, filter_cons_acl_ne _ _ _ _ _ h21,
          filter_cons_acl_self, filter_aclOther_comm u2 u3, filter_aclOther_idem,
          filter_aclOther_comm u3 u2]
      rw [hNF]
      have hR1 : ((l.filter (aclOther u3 q)).filter (aclOther u2 q)).filter (aclOther u3 q)
          = (l.filter (aclOther u3 q)).filter (aclOther u2 q) := by
        rw [filter_aclOther_comm u2 u3, filter_aclOther_idem, filter_aclOther_comm u3 u2]
      have hR2 : ((l.filter (aclOther u3 q)).filter (aclOther u2 q)).filter (aclOther u2 q)
          = (l.filter (aclOther u3 q)).filter (aclOther u2 q) :=
        filter_aclOther_idem _ _ _
      have s1eq : setAcl u3 p1 q (⟨u3, p3, q⟩ :: ⟨u2, p2, q⟩ ::
            (l.filter (aclOther u3 q)).filter (aclOther u2 q))
          = ⟨u3, p1, q⟩ :: ⟨u2, p2, q⟩ ::
            (l.filter (aclOther u3 q)).filter (aclOther u2 q) := by
        simp only [setAcl, if_neg hp1]
        rw [filter_cons_acl_self, filter_cons_acl_ne _ _ _ _ _ h21, hR1]
      rw [s1eq]
      have s2eq : setAcl u2 p2 q (⟨u3, p1, q⟩ :: ⟨u2, p2, q⟩ ::
            (l.filter (aclOther u3 q)).filter (aclOther u2 q))
          = ⟨u2, p2, q⟩ :: ⟨u3, p1, q⟩ ::
            (l.filter (aclOther u3 q)).filter (aclOther u2 q) := by
        simp only [setAcl, if_neg hp2]
        rw [filter_cons_acl_ne _ _ _ _ _ (fun he => h32 he), filter_cons_acl_self, hR2]
      rw [s2eq]
      simp only [setAcl, if_neg hp3]
      rw [filter_cons_acl_ne _ _ _ _ _ h21, filter_cons_acl_self, hR1]
    · have h13 : u1 ≠ u3 := fun he => h31 he.symm
      have h23 : u2 ≠ u3 := fun he => h32 he.symm
      have hNF : setAcl u3 p3 q (setAcl u2 p2 q (setAcl u1 p1 q l))
          = ⟨u3, p3, q⟩ :: ⟨u2, p2, q⟩ :: ⟨u1, p1, q⟩ ::
            (((l.filter (aclOther u1 q)).filter (aclOther u2 q)).filter (aclOther u3 q)) := by
        simp only [setAcl, if_neg hp1, if_neg hp2, if_neg hp3]
        rw [filter_cons_acl_ne _ _ _ _ _ h12, filter_cons_acl_ne _ _ _ _ _ h23,
          filter_cons_acl_ne _ _ _ _ _ h13]
      rw [hNF]
      have hR1 : ((((l.filter (aclOther u1 q)).filter (aclOther u2 q)).filter
            (aclOther u3 q)).filter (aclOther u1 q))
          = ((l.filter (aclOther u1 q)).filter (aclOther u2 q)).filter (aclOther u3 q) := by
        rw [filter_aclOther_comm u3 u1, filter_aclOther_comm u2 u1, filter_aclOther_idem]
      have hR2 : ((((l.filter (aclOther u1 q)).filter (aclOther u2 q)).filter
            (aclOther u3 q)).filter (aclOther u2 q))
          = ((l.filter (aclOther u1 q)).filter (aclOther u2 q)).filter (aclOther u3 q) := by
        rw [filter_aclOther_comm u3 u2, filter_aclOther_idem]
      have hR3 : ((((l.filter (aclOther u1 q)).filter (aclOther u2 q)).filter
            (aclOther u3 q)).filter (aclOther u3 q))
          = ((l.filter (aclOther u1 q)).filter (aclOther u2 q)).filter (aclOther u3 q) :=
        filter_aclOther_idem _ _ _
      have s1eq : setAcl u1 p1 q (⟨u3, p3, q⟩ :: ⟨u2, p2, q⟩ :: ⟨u1, p1, q⟩ ::
            (((l.filter (aclOther u1 q)).filter (aclOther u2 q)).filter (aclOther u3 q)))
          = ⟨u1, p1, q⟩ :: ⟨u3, p3, q⟩ :: ⟨u2, p2, q⟩ ::
            (((l.filter (aclOther u1 q)).filter (aclOther u2 q)).filter (aclOther u3 q)) := by
        simp only [setAcl, if_neg hp1]
        rw [filter_cons_acl_ne _ _ _ _ _ h31, filter_cons_acl_ne _ _ _ _ _ h21,
          filter_cons_acl_self, hR1]
      rw [s1eq]
      have s2eq : setAcl u2 p2 q (⟨u1, p1, q⟩ :: ⟨u3, p3, q⟩ :: ⟨u2, p2, q⟩ ::
            (((l.filter (aclOther u1 q)).filter (aclOther u2 q)).filter (aclOther u3 q)))
          = ⟨u2, p2, q⟩ :: ⟨u1, p1, q⟩ :: ⟨u3, p3, q⟩ ::
            (((l.filter (aclOther u1 q)).filter (aclOther u2 q)).filter (aclOther u3 q)) := by
        simp only [setAcl, if_neg hp2]
        rw [filter_cons_acl_ne _ _ _ _ _ h12, filter_cons_acl_ne _ _ _ _ _ h32,
          filter_cons_acl_self, hR2]
      rw [s2eq]
      simp only [setAcl, if_neg hp3]
      rw [filter_cons_acl_ne _ _ _ _ _ h23, filter_cons_acl_ne _ _ _ _ _ h13,
        filter_cons_acl_self, hR3]

/-! ## Lemmas about recursive collection creation -/

lemma addMissing_cons (l : List (List String)) (y : List String) (xs : List (List String)) :
    addMissing l (y :: xs) = addMissing (if y ∈ l then l else l ++ [y]) xs := rfl

lemma mem_addMissing (xs l : List (List String)) (x : List String) :
    x ∈ addMissing l xs ↔ x ∈ l ∨ x ∈ xs := by
  induction xs generalizing l with
  | nil => simp [addMissing]
  | cons y ys ih =>
    rw [addMissing_cons]
    by_cases hy : y ∈ l
    · rw [if_pos hy, ih]
      constructor
      · rintro (h | h)
        · exact Or.inl h
        · exact Or.inr (List.mem_cons_of_mem y h)
      · rintro (h | h)
        · exact Or.inl h
        · rcases List.mem_cons.mp h with h1 | h1
          · exact Or.inl (h1 ▸ hy)
          · exact Or.inr h1
    · rw [if_neg hy, ih]
      simp only [List.mem_append, List.mem_singleton, List.mem_cons]
      tauto

lemma count_addMissing_of_mem (xs l : List (List String)) (x : List String)
    (h : x ∈ l) : (addMissing l xs).count x = l.count x := by
  induction xs generalizing l with
  | nil => rfl
  | cons y ys ih =>
    rw [addMissing_cons]
    by_cases hy : y ∈ l
    · rw [if_pos hy]
      exact ih l h
    · rw [if_neg hy]
      have hxy : y ≠ x := fun he => hy (he ▸ h)
      rw [ih (l ++ [y]) (List.mem_append_left _ h), List.count_append]
      simp [List.count_cons, hxy]

lemma count_addMissing_of_not_mem (xs l : List (List String)) (x : List String)
    (hxl : x ∉ l) (hxs : x ∈ xs) : (addMissing l xs).count x = 1 := by
  induction xs generalizing l with
  | nil => exact absurd hxs (List.not_mem_nil x)
  | cons y ys ih =>
    rw [addMissing_cons]
    by_cases hy : y ∈ l
    · have hxy : x ≠ y := fun he => hxl (he ▸ hy)
      rw [if_pos hy]
      refine ih l hxl ?_
      rcases List.mem_cons.mp hxs with h1 | h1
      · exact absurd h1 hxy
      · exact h1
    · rw [if_neg hy]
      by_cases hxy : x = y
      · subst hxy
        rw [count_addMissing_of_mem ys (l ++ [x]) x (List.mem_append_right _ (by simp)),
          List.count_append]
        simp [List.count_eq_zero.mpr hxl]
      · refine ih (l ++ [y]) ?_ ?_
        · simp only [List.mem_append, List.mem_singleton]
          rintro (h | h)
          · exact hxl h
          · exact hxy h
        · rcases List.mem_cons.mp hxs with h1 | h1
          · exact absurd h1 hxy
          · exact h1

lemma self_mem_ancestorChain (q : List String) (h : q ≠ []) : q ∈ ancestorChain q := by
  unfold ancestorChain
  apply List.mem_map.mpr
  refine ⟨q.length, ?_, List.take_length q⟩
  rw [List.mem_range'_1]
  have : 0 < q.length := List.length_pos.mpr h
  omega

/-! ## Characterizations of the backend operations -/

lemma getUser_ok (s : State) (u : String) (h : userPresent s u = true) :
    getUser s u = .ok (⟨u, s.zone⟩, s) := by
  simp [getUser, h]

lemma ensureUserExists_existing (s : State) (u : String) (h : userExistsDs s u = true) :
    ensureUserExists u s = .ok (⟨u, s.zone⟩, s) := by
  unfold ensureUserExists
  rw [if_pos h]
  exact getUser_ok s u h

lemma createUserDs_ok_elim {s : State} {u : String} {usr : IUser} {s' : State}
    (h : createUserDs s u = .ok (usr, s')) :
    userPresent s u = false ∧ usr = ⟨u, s.zone⟩ ∧
      s' = { s with users := ⟨u, s.zone⟩ :: s.users } := by
  unfold createUserDs at h
  split at h
  · exact absurd h (by simp)
  · next hnp =>
    simp only [Except.ok.injEq, Prod.mk.injEq] at h
    exact ⟨Bool.eq_false_iff.mpr hnp, h.1.symm, h.2.symm⟩

lemma collCreate_ok_elim {pa : String} {s : State} {x : Unit} {s' : State}
    (h : collCreate pa s = .ok (x, s')) :
    normSegs pa ∉ s.collections ∧ normSegs pa ∉ s.dataObjects ∧
      s' = { s with
        collections := addMissing s.collections (ancestorChain (normSegs pa)) } := by
  unfold collCreate at h
  split at h
  · exact absurd h (by simp)
  · split at h
    · exact absurd h (by simp)
    · next h1 h2 =>
      simp only [Except.ok.injEq, Prod.mk.injEq] at h
      exact ⟨h1, h2, h.2.symm⟩

lemma chmodDs_ok_elim {a p pa : String} {s : State} {x : Unit} {s' : State}
    (h : chmodDs a p pa s = .ok (x, s')) :
    (normSegs pa ∈ s.dataObjects ∨ normSegs pa ∈ s.collections) ∧
      ((p = "inherit" ∨ p = "noinherit") ∨ (p ∈ s.perms ∧ userPresent s a = true)) ∧
      s' = { s with acls := setAcl a p (normSegs pa) s.acls } := by
  unfold chmodDs at h
  split at h
  · exact absurd h (by simp)
  · next hpath =>
    have hp : normSegs pa ∈ s.dataObjects ∨ normSegs pa ∈ s.collections :=
      or_iff_not_imp_left.mpr (by simpa using hpath)
    split at h
    · next hinh =>
      simp only [Except.ok.injEq, Prod.mk.injEq] at h
      exact ⟨hp, Or.inl hinh, h.2.symm⟩
    · next hninh =>
      split at h
      · exact absurd h (by simp)
      · next hperm =>
        split at h
        · exact absurd h (by simp)
        · next huser =>
          simp only [Except.ok.injEq, Prod.mk.injEq] at h
          exact ⟨hp, Or.inr ⟨not_not.mp hperm, by simpa using huser⟩, h.2.symm⟩

lemma chmodDs_ok_intro (a p pa : String) (s : State)
    (hpath : normSegs pa ∈ s.dataObjects ∨ normSegs pa ∈ s.collections)
    (hcond : (p = "inherit" ∨ p = "noinherit") ∨ (p ∈ s.perms ∧ userPresent s a = true)) :
    chmodDs a p pa s = .ok ((), { s with acls := setAcl a p (normSegs pa) s.acls }) := by
  unfold chmodDs
  rw [if_neg (by simp only [Bool.not_eq_true', Bool.not_eq_false]; simpa using hpath)]
  rcases hcond with hinh | ⟨hperm, huser⟩
  · rw [if_pos hinh]
  · by_cases hinh : p = "inherit" ∨ p = "noinherit"
    · rw [if_pos hinh]
    · rw [if_neg hinh, if_neg (by simpa using hperm), if_neg (by simp [huser])]

lemma ensureUserExists_fresh (s : State) (u : String)
    (hu : userExistsDs s u = false)
    (hh : pathExistsDs s (homeDirectory s.zone u) = false)
    (hp : "own" ∈ s.perms) :
    ensureUserExists u s = .ok (⟨u, s.zone⟩,
      { s with
        users := ⟨u, s.zone⟩ :: s.users
        collections := addMissing s.collections
          (ancestorChain (normSegs (homeDirectory s.zone u)))
        acls := setAcl u "own" (normSegs (homeDirectory s.zone u)) s.acls }) := by
  have hh1 : normSegs (homeDirectory s.zone u) ∉ s.dataObjects := by
    simp only [pathExistsDs, dataObjectExists, collectionExists, Bool.or_eq_false_iff,
      decide_eq_false_iff_not] at hh
    exact hh.1
  have hh2 : normSegs (homeDirectory s.zone u) ∉ s.collections := by
    simp only [pathExistsDs, dataObjectExists, collectionExists, Bool.or_eq_false_iff,
      decide_eq_false_iff_not] at hh
    exact hh.2
  have hup : userPresent s u = false := hu
  unfold ensureUserExists
  rw [if_neg (by simp [hu])]
  have hcu : createUserDs s u
      = .ok (⟨u, s.zone⟩, { s with users := ⟨u, s.zone⟩ :: s.users }) := by
    unfold createUserDs
    rw [if_neg (by simp [hup])]
  rw [hcu]
  dsimp only
  have hpe : pathExistsDs { s with users := ⟨u, s.zone⟩ :: s.users }
      (homeDirectory s.zone u) = false := by
    simpa [pathExistsDs, dataObjectExists, collectionExists] using hh
  rw [if_pos (by simp [hpe])]
  have hcc : collCreate (homeDirectory s.zone u) { s with users := ⟨u, s.zone⟩ :: s.users }
      = .ok ((), { s with
          users := ⟨u, s.zone⟩ :: s.users
          collections := addMissing s.collections
            (ancestorChain (normSegs (homeDirectory s.zone u))) }) := by
    unfold collCreate
    rw [if_neg (by simpa using hh2), if_neg (by simpa using hh1)]
  rw [hcc]
  have hch := chmodDs_ok_intro u "own" (homeDirectory s.zone u)
    { s with
      users := ⟨u, s.zone⟩ :: s.users
      collections := addMissing s.collections
        (ancestorChain (normSegs (homeDirectory s.zone u))) }
    (Or.inr (by
      simp only [mem_addMissing]
      exact Or.inr (self_mem_ancestorChain _ (normSegs_homeDirectory_ne_nil s.zone u))))
    (Or.inr ⟨by simpa using hp, by simp [userPresent]⟩)
  dsimp only
  rw [hch]

lemma ensureUserExists_ok_elim {u : String} {s : State} {usr : IUser} {s' : State}
    (h : ensureUserExists u s = .ok (usr, s')) :
    usr = ⟨u, s.zone⟩ ∧ s'.zone = s.zone ∧ s'.perms = s.perms ∧
      userExistsDs s' u = true := by
  by_cases hex : userExistsDs s u
  · rw [ensureUserExists_existing s u hex] at h
    simp only [Except.ok.injEq, Prod.mk.injEq] at h
    obtain ⟨hu1, hu2⟩ := h
    subst hu2
    exact ⟨hu1.symm, rfl, rfl, hex⟩
  · unfold ensureUserExists at h
    rw [if_neg hex] at h
    cases hcr : createUserDs s u with
    | error e => rw [hcr] at h; exact absurd h (by simp)
    | ok pair =>
      obtain ⟨usr1, s1⟩ := pair
      obtain ⟨hup, husr, hs1⟩ := createUserDs_ok_elim hcr
      rw [hcr] at h
      simp only at h
      split at h
      · cases hcc : collCreate (homeDirectory s1.zone u) s1 with
        | error e => rw [hcc] at h; exact absurd h (by simp)
        | ok pair2 =>
          obtain ⟨u2, s2⟩ := pair2
          obtain ⟨hc1, hc2, hs2⟩ := collCreate_ok_elim hcc
          rw [hcc] at h
          simp only at h
          cases hch : chmodDs u "own" (homeDirectory s1.zone u) s2 with
          | error e => rw [hch] at h; exact absurd h (by simp)
          | ok pair3 =>
            obtain ⟨u3, s3⟩ := pair3
            obtain ⟨hm1, hm2, hs3⟩ := chmodDs_ok_elim hch
            rw [hch] at h
            simp only [Except.ok.injEq, Prod.mk.injEq] at h
            obtain ⟨hu1, hu2⟩ := h
            subst hu2
            subst hs3
            subst hs2
            subst hs1
            refine ⟨hu1.symm ▸ husr, by simp, by simp, ?_⟩
            simp [userExistsDs, userPresent]
      · simp only [Except.ok.injEq, Prod.mk.injEq] at h
        obtain ⟨hu1, hu2⟩ := h
        subst hu2
        subst hs1
        refine ⟨hu1.symm ▸ husr, by simp, by simp, ?_⟩
        simp [userExistsDs, userPresent]

lemma not_mem_of_userPresent_false {s : State} {u : String}
    (h : userPresent s u = false) : (⟨u, s.zone⟩ : IUser) ∉ s.users := by
  intro hmem
  have htrue : userPresent s u = true := by
    unfold userPresent
    exact List.any_eq_true.mpr ⟨⟨u, s.zone⟩, hmem, by simp⟩
  rw [h] at htrue
  exact absurd htrue (by simp)

/-! ## Claim theorems -/

/-- C5: a chmod request whose permission name is not in the live
`AvailablePermissions()` vocabulary is rejected by the handler with an
HTTP 400 validation outcome before any backend mutation, leaving the
backend state — in particular the target path's ACL — unchanged. -/
theorem chmod_unknown_permission_rejected (pc : PathPermission) (s : State)
    (h : pc.permission ∉ s.perms) :
    (chmodHandler pc s).2 = s ∧ httpCode (chmodHandler pc s).1 = some 400 := by
  unfold chmodHandler
  by_cases h1 : pc.username = ""
  · rw [if_pos h1]; exact ⟨rfl, rfl⟩
  · rw [if_neg h1]
    by_cases h2 : pc.path = ""
    · rw [if_pos h2]; exact ⟨rfl, rfl⟩
    · rw [if_neg h2]
      by_cases h3 : pc.permission = ""
      · rw [if_pos h3]; exact ⟨rfl, rfl⟩
      · rw [if_neg h3]
        by_cases h4 : userExistsDs s pc.username = true
        · rw [if_neg (by simp [h4]), if_pos h]
          exact ⟨rfl, rfl⟩
        · rw [if_pos (by simpa using h4)]
          exact ⟨rfl, rfl⟩

/-- Witness for C5 at a concrete request carrying an unknown
permission name. -/
theorem chmod_unknown_permission_rejected_witness :
    ("badperm" ∉ stateAlice.perms) ∧
    (chmodHandler ⟨"alice", "/tempZone/home/alice", "badperm"⟩ stateAlice).2 = stateAlice ∧
    httpCode (chmodHandler ⟨"alice", "/tempZone/home/alice", "badperm"⟩ stateAlice).1
      = some 400 :=
  ⟨by decide, (chmod_unknown_permission_rejected _ _ (by decide)).1,
    (chmod_unknown_permission_rejected _ _ (by decide)).2⟩

/-- C6: `user_exists` returns `false` exactly when the backend lookup
raises `UserDoesNotExist`, returns `true` when the lookup yields a
user, and propagates every other backend failure as an error. -/
theorem user_exists_error_discipline (r : LookupOutcome) :
    (userExistsRaw r = .ok false ↔ r = .userDoesNotExist) ∧
    (∀ u : IUser, r = .found u → userExistsRaw r = .ok true) ∧
    (∀ m : String, r = .failure m → userExistsRaw r = .error (.backend m)) := by
  refine ⟨?_, ?_, ?_⟩ <;> cases r <;> simp [userExistsRaw]

/-- Witness for C6 at the three concrete lookup outcomes. -/
theorem user_exists_error_discipline_witness :
    userExistsRaw .userDoesNotExist = .ok false ∧
    userExistsRaw (.found ⟨"alice", "tempZone"⟩) = .ok true ∧
    userExistsRaw (.failure "network timeout") = .error (.backend "network timeout") :=
  ⟨(user_exists_error_discipline .userDoesNotExist).1.mpr rfl,
    (user_exists_error_discipline _).2.1 ⟨"alice", "tempZone"⟩ rfl,
    (user_exists_error_discipline _).2.2 "network timeout" rfl⟩

/-- C7: `path_exists` is true iff the path resolves as a collection
or as a data object, false when neither resolves; being a total
Boolean function of the catalog, it never raises on an absent path. -/
theorem path_exists_disjunction (s : State) (p : String) :
    (pathExistsDs s p = true ↔
      (collectionExists s p = true ∨ dataObjectExists s p = true)) ∧
    (pathExistsDs s p = false ↔
      (collectionExists s p = false ∧ dataObjectExists s p = false)) := by
  cases hc : collectionExists s p <;> cases hd : dataObjectExists s p <;>
    simp [pathExistsDs, hc, hd]

/-- C8: `delete_home` is a no-op (no error, no state change) when the
home collection does not exist; when it does, the home and its whole
subtree (collections and data objects) are removed. -/
theorem delete_home_noop_on_absence (s : State) (u : String) :
    (normSegs (homeDirectory s.zone u) ∉ s.collections →
      deleteHome u s = .ok ((), s)) ∧
    (normSegs (homeDirectory s.zone u) ∈ s.collections →
      deleteHome u s
        = .ok ((), collRemoveRecursive (normSegs (homeDirectory s.zone u)) s) ∧
      (∀ c ∈ (collRemoveRecursive (normSegs (homeDirectory s.zone u)) s).collections,
        (normSegs (homeDirectory s.zone u)).isPrefixOf c = false) ∧
      (∀ d ∈ (collRemoveRecursive (normSegs (homeDirectory s.zone u)) s).dataObjects,
        (normSegs (homeDirectory s.zone u)).isPrefixOf d = false)) := by
  constructor
  · intro h
    unfold deleteHome
    rw [if_neg h]
  · intro h
    refine ⟨by unfold deleteHome; rw [if_pos h], ?_, ?_⟩
    · intro c hc
      simp only [collRemoveRecursive] at hc
      simpa using (List.mem_filter.mp hc).2
    · intro d hd
      simp only [collRemoveRecursive] at hd
      simpa using (List.mem_filter.mp hd).2

/-- Witness for C8: a no-op deletion for `ghost` (whose home never
existed) and a real deletion for `dana`'s pre-existing home. -/
theorem delete_home_noop_on_absence_witness :
    deleteHome "ghost" stateEmpty = .ok ((), stateEmpty) ∧
    deleteHome "dana" stateDana
      = .ok ((), collRemoveRecursive (normSegs (homeDirectory "z" "dana")) stateDana) :=
  ⟨(delete_home_noop_on_absence stateEmpty "ghost").1 (by decide),
    ((delete_home_noop_on_absence stateDana "dana").2 (by decide)).1⟩

/-- C9: once a create-user call has succeeded, repeating it without an
intervening deletion is rejected (HTTP 400 "user exists") on the
second call, the backend state is untouched by the second call, and
exactly one user with that name exists — never a silent duplicate. -/
theorem create_user_conflict_on_second (u : String) (s : State) (usr : IUser)
    (h : (createUserHandler u s).1 = .ok usr) :
    ∃ s1 : State, (createUserHandler u s).2 = s1 ∧
      createUserHandler u s1 = (.error (.http 400 "user exists"), s1) ∧
      s1.users.count ⟨u, s.zone⟩ = 1 := by
  unfold createUserHandler at h
  by_cases h1 : u = ""
  · rw [if_pos h1] at h
    exact absurd h (by simp)
  · rw [if_neg h1] at h
    by_cases h2 : userExistsDs s u = true
    · rw [if_pos h2] at h
      exact absurd h (by simp)
    · rw [if_neg h2] at h
      have hup : userPresent s u = false := by
        simpa [userExistsDs] using h2
      have hcu : createUserDs s u
          = .ok (⟨u, s.zone⟩, { s with users := ⟨u, s.zone⟩ :: s.users }) := by
        unfold createUserDs
        rw [if_neg (by simp [hup])]
      have hex1 : userExistsDs { s with users := ⟨u, s.zone⟩ :: s.users } u = true := by
        simp [userExistsDs, userPresent]
      refine ⟨{ s with users := ⟨u, s.zone⟩ :: s.users }, ?_, ?_, ?_⟩
      · unfold createUserHandler
        rw [if_neg h1, if_neg h2, hcu]
      · unfold createUserHandler
        rw [if_neg h1, if_pos hex1]
      · simp [List.count_cons, List.count_eq_zero.mpr (not_mem_of_userPresent_false hup)]

/-- Witness for C9 at a concrete username in an empty catalog. -/
theorem create_user_conflict_on_second_witness :
    ∃ s1 : State, (createUserHandler "alice" stateEmpty).2 = s1 ∧
      createUserHandler "alice" s1 = (.error (.http 400 "user exists"), s1) ∧
      s1.users.count ⟨"alice", "z"⟩ = 1 :=
  create_user_conflict_on_second "alice" stateEmpty ⟨"alice", "z"⟩ (by rfl)

/-- C10: `list_users_by_username` ignores its username argument: the
Python `and` of the two query criteria evaluates to the zone criterion
alone, so for any two usernames the very same list — every user of
the configured zone — is looked up and returned. -/
theorem list_users_by_username_ignores_argument (s : State) (u1 u2 : String) :
    listUsersByUsername s u1 = listUsersByUsername s u2 ∧
    listUsersByUsername s u1 = s.users.filter (fun x => x.zone == s.zone) := by
  have hred : ∀ un : String, listUsersByUsername s un
      = s.users.filter (fun x => x.zone == s.zone) := by
    intro un
    unfold listUsersByUsername
    rw [show pyAnd (.nameEq un) (.zoneEq s.zone) = .zoneEq s.zone from rfl]
    have hmap : (fun x : IUser => (⟨x.name, x.zone⟩ : IUser)) = id :=
      funext fun x => rfl
    rw [hmap, List.map_id]
    rfl
  exact ⟨(hred u1).trans (hred u2).symm, hred u1⟩

/-- C1 (amended): the join performed by the registration workflow
keeps the computed fullPath inside the home subtree only for relative
sub-paths free of parent-directory segments: whenever the supplied
sub-path does not begin with a separator and none of its segments is
`..`, `osPathJoin` of the home directory and the sub-path resolves to
a location under the home directory.  (As stated the claim is false:
the counterexample shows a leading separator discards the home
directory entirely and a collection outside the home subtree is
silently created.) -/
theorem register_fullPath_under_home (zone username sub : String)
    (h1 : startsWithSep sub = false)
    (h2 : endsWithSep (homeDirectory zone username) = false)
    (h3 : homeDirectory zone username ≠ "")
    (h4 : ".." ∉ segsOf sub) :
    underHome (homeDirectory zone username)
      (osPathJoin (homeDirectory zone username) sub) = true := by
  unfold osPathJoin
  rw [if_neg (by simp [h1]), if_neg (by simp [h2, h3])]
  exact underHome_append _ _ h4

/-- Witness for C1 (amended) at the concrete sub-path `projectA`. -/
theorem register_fullPath_under_home_witness :
    startsWithSep "projectA" = false ∧
    underHome (homeDirectory "tempZone" "alice")
      (osPathJoin (homeDirectory "tempZone" "alice") "projectA") = true :=
  ⟨by decide, register_fullPath_under_home "tempZone" "alice" "projectA"
    (by decide) (by decide) (by decide) (by decide)⟩

/-- Counterexample to C1 as stated: the registration request for user
`alice` with the non-empty sub-path `/stolen` passes validation, the
computed fullPath `/stolen` is not under `/tempZone/home/alice`, and
the workflow silently creates the collection `/stolen` outside the
home subtree. -/
theorem register_escapes_home_counterexample :
    regStolen.username ≠ "" ∧ regStolen.irods_path ≠ "" ∧
    underHome (homeDirectory "tempZone" "alice")
      (osPathJoin (homeDirectory "tempZone" "alice") regStolen.irods_path) = false ∧
    regOutPath (serviceRegistration regStolen stateAlice) = some "/stolen" ∧
    ["stolen"] ∈ regFinalCollections (serviceRegistration regStolen stateAlice) ∧
    ["stolen"] ∉ stateAlice.collections := by
  refine ⟨by decide, by decide, by decide, by decide, by decide, by decide⟩

/-- C2 (amended): `ensure_user_exists` is idempotent — whenever a
call succeeds, an immediately repeated call returns the same user and
the same final state without error; and for a username that does not
currently exist whose home directory also does not yet exist, the two
calls produce exactly one user and exactly one home collection
carrying a full-ownership grant for that user.  (As stated the claim
is false: the counterexample shows that when the home collection
pre-exists, the fresh user never receives an ownership grant on
it.) -/
theorem ensure_user_exists_idempotent (s : State) (u : String) :
    (∀ (usr : IUser) (s1 : State), ensureUserExists u s = .ok (usr, s1) →
      ensureUserExists u s1 = .ok (usr, s1)) ∧
    (userExistsDs s u = false →
      pathExistsDs s (homeDirectory s.zone u) = false →
      "own" ∈ s.perms →
      ∃ s1 : State, ensureUserExists u s = .ok (⟨u, s.zone⟩, s1) ∧
        ensureUserExists u s1 = .ok (⟨u, s.zone⟩, s1) ∧
        s1.users.count ⟨u, s.zone⟩ = 1 ∧
        s1.collections.count (normSegs (homeDirectory s.zone u)) = 1 ∧
        Acl.mk u "own" (normSegs (homeDirectory s.zone u)) ∈ s1.acls) := by
  constructor
  · intro usr s1 h
    obtain ⟨husr, hz, _, hex⟩ := ensureUserExists_ok_elim h
    rw [ensureUserExists_existing s1 u hex, hz, husr]
  · intro hu hh hp
    have hup : userPresent s u = false := hu
    have hcoll : normSegs (homeDirectory s.zone u) ∉ s.collections := by
      simp only [pathExistsDs, dataObjectExists, collectionExists, Bool.or_eq_false_iff,
        decide_eq_false_iff_not] at hh
      exact hh.2
    refine ⟨_, ensureUserExists_fresh s u hu hh hp, ?_, ?_, ?_, ?_⟩
    · exact ensureUserExists_existing _ u (by simp [userExistsDs, userPresent])
    · simp [List.count_cons, List.count_eq_zero.mpr (not_mem_of_userPresent_false hup)]
    · exact count_addMissing_of_not_mem _ _ _ hcoll
        (self_mem_ancestorChain _ (normSegs_homeDirectory_ne_nil s.zone u))
    · simp [setAcl]

/-- Witness for C2 (amended) at a fresh username in an empty
catalog. -/
theorem ensure_user_exists_idempotent_witness :
    ∃ s1 : State, ensureUserExists "erin" stateEmpty = .ok (⟨"erin", "z"⟩, s1) ∧
      ensureUserExists "erin" s1 = .ok (⟨"erin", "z"⟩, s1) ∧
      s1.users.count ⟨"erin", "z"⟩ = 1 ∧
      s1.collections.count (normSegs (homeDirectory "z" "erin")) = 1 ∧
      Acl.mk "erin" "own" (normSegs (homeDirectory "z" "erin")) ∈ s1.acls :=
  (ensure_user_exists_idempotent stateEmpty "erin").2 (by decide) (by decide) (by decide)

/-- Counterexample to C2 as stated: `dana` does not exist, yet her
home collection does.  Both calls to `ensure_user_exists` succeed and
are idempotent, but the final state carries no ACL entry at all, so
the home directory is not owned by `dana`. -/
theorem ensure_user_exists_ghost_home_counterexample :
    userExistsDs stateDana "dana" = false ∧
    (ensureUserExists "dana" stateDana).toOption = some (⟨"dana", "z"⟩, stateDana1) ∧
    (ensureUserExists "dana" stateDana1).toOption = some (⟨"dana", "z"⟩, stateDana1) ∧
    normSegs (homeDirectory "z" "dana") ∈ stateDana1.collections ∧
    Acl.mk "dana" "own" (normSegs (homeDirectory "z" "dana")) ∉ stateDana1.acls ∧
    stateDana1.acls = [] :=
  ⟨by decide, by decide, by decide, by decide, by decide, by decide⟩

/-- C4 (amended): whenever `ensure_user_exists` itself creates the
home directory — the user and the home are both absent and the `own`
permission is available — the resulting state contains the home
collection together with a full-ownership grant for the user.  (As
stated the claim is false: the counterexample shows a successful run
that finds the home pre-existing and leaves it present but not owned
by the returned user.) -/
theorem ensure_user_exists_grants_ownership (s : State) (u : String)
    (hu : userExistsDs s u = false)
    (hh : pathExistsDs s (homeDirectory s.zone u) = false)
    (hp : "own" ∈ s.perms) :
    ∃ s1 : State, ensureUserExists u s = .ok (⟨u, s.zone⟩, s1) ∧
      normSegs (homeDirectory s.zone u) ∈ s1.collections ∧
      Acl.mk u "own" (normSegs (homeDirectory s.zone u)) ∈ s1.acls := by
  refine ⟨_, ensureUserExists_fresh s u hu hh hp, ?_, ?_⟩
  · simp only [mem_addMissing]
    exact Or.inr (self_mem_ancestorChain _ (normSegs_homeDirectory_ne_nil s.zone u))
  · simp [setAcl]

/-- Witness for C4 (amended) at a fresh username in an empty
catalog. -/
theorem ensure_user_exists_grants_ownership_witness :
    ∃ s1 : State, ensureUserExists "frank" stateEmpty = .ok (⟨"frank", "z"⟩, s1) ∧
      normSegs (homeDirectory "z" "frank") ∈ s1.collections ∧
      Acl.mk "frank" "own" (normSegs (homeDirectory "z" "frank")) ∈ s1.acls :=
  ensure_user_exists_grants_ownership stateEmpty "frank" (by decide) (by decide) (by decide)

/-- Counterexample to C4 as stated: `ensure_user_exists("carol")`
returns successfully, the home directory exists in the final state,
but it carries no full-ownership grant for `carol`. -/
theorem ensure_user_exists_preexisting_home_counterexample :
    (ensureUserExists "carol" stateCarol).toOption = some (⟨"carol", "z"⟩, stateCarol1) ∧
    pathExistsDs stateCarol1 (homeDirectory "z" "carol") = true ∧
    Acl.mk "carol" "own" (normSegs (homeDirectory "z" "carol")) ∉ stateCarol1.acls :=
  ⟨by decide, by decide, by decide⟩

lemma registerGrants_ok_elim {un : String} {sec : Option String} {fp : String}
    {s s' : State} (h : registerGrants un sec fp s = .ok s') :
    (normSegs fp ∈ s.dataObjects ∨ normSegs fp ∈ s.collections) ∧
    ("own" ∈ s.perms ∧ userPresent s un = true) ∧
    (∀ su, sec = some su → userPresent s su = true) ∧
    s' = { s with acls := grantsAcls un sec (normSegs fp) s.acls } := by
  unfold registerGrants at h
  cases h1 : chmodDs "" "inherit" fp s with
  | error e => rw [h1] at h; exact absurd h (by simp)
  | ok p1 =>
    obtain ⟨x1, s3⟩ := p1
    obtain ⟨hpath1, _, hs3⟩ := chmodDs_ok_elim h1
    rw [h1] at h
    simp only at h
    cases h2 : chmodDs un "own" fp s3 with
    | error e => rw [h2] at h; exact absurd h (by simp)
    | ok p2 =>
      obtain ⟨x2, s4⟩ := p2
      obtain ⟨_, hcond2, hs4⟩ := chmodDs_ok_elim h2
      have hcond2' : "own" ∈ s3.perms ∧ userPresent s3 un = true := by
        rcases hcond2 with h' | h'
        · rcases h' with h' | h' <;> exact absurd h' (by decide)
        · exact h'
      rw [h2] at h
      simp only at h
      subst hs3
      cases sec with
      | none =>
        simp only [Except.ok.injEq] at h
        subst h
        subst hs4
        refine ⟨hpath1, ?_, ?_, ?_⟩
        · simpa using hcond2'
        · intro su hsu
          exact absurd hsu (by simp)
        · simp [grantsAcls]
      | some su =>
        simp only at h
        cases h3 : chmodDs su "own" fp s4 with
        | error e => rw [h3] at h; exact absurd h (by simp)
        | ok p3 =>
          obtain ⟨x3, s5⟩ := p3
          obtain ⟨_, hcond3, hs5⟩ := chmodDs_ok_elim h3
          have hcond3' : "own" ∈ s4.perms ∧ userPresent s4 su = true := by
            rcases hcond3 with h' | h'
            · rcases h' with h' | h' <;> exact absurd h' (by decide)
            · exact h'
          rw [h3] at h
          simp only [Except.ok.injEq] at h
          subst h
          subst hs5
          subst hs4
          refine ⟨hpath1, ?_, ?_, ?_⟩
          · simpa using hcond2'
          · intro su' hsu'
            have : su' = su := by simpa using hsu'.symm
            subst this
            simpa using hcond3'.2
          · simp [grantsAcls]

lemma registerGrants_ok_intro (un : String) (sec : Option String) (fp : String) (s : State)
    (hpath : normSegs fp ∈ s.dataObjects ∨ normSegs fp ∈ s.collections)
    (hperm : "own" ∈ s.perms) (hun : userPresent s un = true)
    (hsec : ∀ su, sec = some su → userPresent s su = true) :
    registerGrants un sec fp s
      = .ok { s with acls := grantsAcls un sec (normSegs fp) s.acls } := by
  unfold registerGrants
  rw [chmodDs_ok_intro "" "inherit" fp s hpath (Or.inl (Or.inl rfl))]
  dsimp only
  rw [chmodDs_ok_intro un "own" fp
    { s with acls := setAcl "" "inherit" (normSegs fp) s.acls }
    hpath (Or.inr ⟨hperm, hun⟩)]
  dsimp only
  cases sec with
  | none => simp [grantsAcls]
  | some su =>
    dsimp only
    rw [chmodDs_ok_intro su "own" fp
      { s with acls :=
          (setAcl un "own" (normSegs fp) (setAcl "" "inherit" (normSegs fp) s.acls)) }
      hpath (Or.inr ⟨hperm, hsec su rfl⟩)]
    simp [grantsAcls]

lemma grantsAcls_idem (un : String) (sec : Option String) (q : List String)
    (a : List Acl) (hun : un ≠ "") :
    grantsAcls un sec q (grantsAcls un sec q a) = grantsAcls un sec q a := by
  cases sec with
  | none =>
    exact setAcl_pair_idem "" "inherit" un "own" q a (by decide) (by decide) (Ne.symm hun)
  | some su =>
    exact setAcl_triple_idem "" "inherit" un "own" su "own" q a
      (by decide) (by decide) (by decide) (Ne.symm hun)

lemma mem_grantsAcls_primary (un : String) (sec : Option String) (q : List String)
    (a : List Acl) : Acl.mk un "own" q ∈ grantsAcls un sec q a := by
  cases sec with
  | none => simp [grantsAcls, setAcl]
  | some su =>
    by_cases hsu : su = un
    · subst hsu
      simp [grantsAcls, setAcl]
    · unfold grantsAcls
      rw [setAcl, if_neg (by decide)]
      apply List.mem_cons_of_mem
      apply List.mem_filter.mpr
      refine ⟨?_, ?_⟩
      · rw [setAcl, if_neg (by decide)]
        exact List.mem_cons_self _ _
      · exact aclOther_mk_eq_true su un "own" q (fun he => hsu he.symm)

lemma mem_grantsAcls_secondary (un su : String) (q : List String) (a : List Acl) :
    Acl.mk su "own" q ∈ grantsAcls un (some su) q a := by
  simp [grantsAcls, setAcl]

lemma register_second_run (reg : ServiceRegistration) (z : String) (sB s5 : State)
    (hu0 : ¬ reg.username = "") (hp0 : ¬ reg.irods_path = "")
    (hz : sB.zone = z)
    (hg : registerGrants reg.username reg.irods_user
      (osPathJoin (homeDirectory z reg.username) reg.irods_path) sB = .ok s5) :
    serviceRegistration reg s5
      = .ok (⟨reg.username,
          osPathJoin (homeDirectory z reg.username) reg.irods_path,
          reg.irods_user⟩, s5) ∧
    Acl.mk reg.username "own"
      (normSegs (osPathJoin (homeDirectory z reg.username) reg.irods_path)) ∈ s5.acls ∧
    (∀ su, reg.irods_user = some su →
      Acl.mk su "own"
        (normSegs (osPathJoin (homeDirectory z reg.username) reg.irods_path)) ∈ s5.acls) := by
  subst hz
  obtain ⟨hpath, ⟨hperm, hupn⟩, hsecp, hs5⟩ := registerGrants_ok_elim hg
  subst hs5
  refine ⟨?_, ?_, ?_⟩
  · unfold serviceRegistration
    rw [if_neg hu0, if_neg hp0,
      ensureUserExists_existing _ reg.username (by simpa [userExistsDs, userPresent] using hupn)]
    dsimp only
    have hpe : pathExistsDs
        { sB with acls :=
          (grantsAcls reg.username reg.irods_user
            (normSegs (osPathJoin (homeDirectory sB.zone reg.username) reg.irods_path))
            sB.acls) }
        (osPathJoin (homeDirectory sB.zone reg.username) reg.irods_path) = true := by
      simp only [pathExistsDs, dataObjectExists, collectionExists]
      rcases hpath with h' | h' <;> simp [h']
    rw [if_neg (by simp [hpe])]
    rw [registerGrants_ok_intro reg.username reg.irods_user
      (osPathJoin (homeDirectory sB.zone reg.username) reg.irods_path)
      { sB with acls :=
        (grantsAcls reg.username reg.irods_user
          (normSegs (osPathJoin (homeDirectory sB.zone reg.username) reg.irods_path))
          sB.acls) }
      hpath hperm hupn hsecp]
    dsimp only
    rw [grantsAcls_idem reg.username reg.irods_user _ sB.acls hu0]
  · exact mem_grantsAcls_primary _ _ _ _
  · intro su hsu
    rw [hsu]
    exact mem_grantsAcls_secondary _ _ _ _

/-- C3: `service_registration` is idempotent — a second invocation
with identical arguments after a prior success reaches exactly the
same ACL/path state with the same response and no error (the
collection is not re-created, each grant tolerates being already in
place) — and when a secondary `irods_user` is supplied, its
full-ownership grant on the full path is present in addition to the
primary owner's grant. -/
theorem service_registration_idempotent (reg : ServiceRegistration) (s : State)
    (out : RegResult) (s1 : State)
    (h : serviceRegistration reg s = .ok (out, s1)) :
    serviceRegistration reg s1 = .ok (out, s1) ∧
    Acl.mk reg.username "own" (normSegs out.irods_path) ∈ s1.acls ∧
    (∀ su, reg.irods_user = some su →
      Acl.mk su "own" (normSegs out.irods_path) ∈ s1.acls) := by
  unfold serviceRegistration at h
  by_cases hu0 : reg.username = ""
  · rw [if_pos hu0] at h
    exact absurd h (by simp)
  rw [if_neg hu0] at h
  by_cases hp0 : reg.irods_path = ""
  · rw [if_pos hp0] at h
    exact absurd h (by simp)
  rw [if_neg hp0] at h
  cases hens : ensureUserExists reg.username s with
  | error e => rw [hens] at h; exact absurd h (by simp)
  | ok pA =>
    obtain ⟨usr0, sA⟩ := pA
    rw [hens] at h
    simp only at h
    split at h
    · cases hcc : collCreate
          (osPathJoin (homeDirectory sA.zone reg.username) reg.irods_path) sA with
      | error e => rw [hcc] at h; exact absurd h (by simp)
      | ok pB =>
        obtain ⟨xB, sB⟩ := pB
        obtain ⟨_, _, hsB⟩ := collCreate_ok_elim hcc
        rw [hcc] at h
        simp only at h
        cases hg : registerGrants reg.username reg.irods_user
            (osPathJoin (homeDirectory sA.zone reg.username) reg.irods_path) sB with
        | error e => rw [hg] at h; exact absurd h (by simp)
        | ok s5 =>
          rw [hg] at h
          simp only [Except.ok.injEq, Prod.mk.injEq] at h
          obtain ⟨hout, hs1⟩ := h
          subst hs1
          subst hout
          exact register_second_run reg sA.zone sB s5 hu0 hp0 (by rw [hsB]) hg
    · cases hg : registerGrants reg.username reg.irods_user
          (osPathJoin (homeDirectory sA.zone reg.username) reg.irods_path) sA with
      | error e => rw [hg] at h; exact absurd h (by simp)
      | ok s5 =>
        rw [hg] at h
        simp only [Except.ok.injEq, Prod.mk.injEq] at h
        obtain ⟨hout, hs1⟩ := h
        subst hs1
        subst hout
        exact register_second_run reg sA.zone sA s5 hu0 hp0 rfl hg

/-- Witness for C3: a concrete registration with secondary user `bob`
on a catalog where `alice` and her home already exist. -/
theorem service_registration_idempotent_witness :
    serviceRegistration ⟨"alice", "projectA", some "bob"⟩ stateAliceProj
      = .ok (regProjOut, stateAliceProj) ∧
    Acl.mk "alice" "own" (normSegs regProjOut.irods_path) ∈ stateAliceProj.acls ∧
    Acl.mk "bob" "own" (normSegs regProjOut.irods_path) ∈ stateAliceProj.acls := by
  have h0 : serviceRegistration ⟨"alice", "projectA", some "bob"⟩ stateAlice
      = .ok (regProjOut, stateAliceProj) := by rfl
  obtain ⟨h1, h2, h3⟩ :=
    service_registration_idempotent ⟨"alice", "projectA", some "bob"⟩ stateAlice
      regProjOut stateAliceProj h0
  exact ⟨h1, h2, h3 "bob" rfl⟩

end PortalDatastore
